import Mathlib

/-!
# Verification of the file-backed key-value store (`src/storage/store.py`)

This file gives a shallow embedding of the `Store` class of
`examples/oss-maintainer-workflow/src/storage/store.py` and proves the
testable properties stated in the design spec against it.

Modelling decisions:

* A persisted document is Python's `json.load` result for a JSON object:
  an insertion-ordered mapping from string keys to JSON values.  We model
  it as an association list `Doc := List (String × JsonValue)`; dictionary
  assignment `d[k] = v` replaces the value in place when the key exists and
  appends otherwise, exactly as Python dictionaries behave.
* JSON numbers are modelled as integers (`Int`); Python integers are exact,
  so `+` carries no overflow concerns.  Python booleans are numeric
  (`True + 1 == 2`), which matters for `increment` and is reflected in
  `pyToNumber`.
* Exceptions raised by the Python code are modelled by the `PyError` type;
  an operation that can raise returns `Except PyError α`.
* The persistent state seen through `_read_all`/`_write_all` is modelled by
  `FileContent` (missing file / parseable JSON value / malformed JSON), and
  the temp-file-then-rename writer by `writeAllDisk` over a `DiskState`.
* The advisory-lock protocol of `_FileLock` and the read-modify-write cycle
  of the mutating operations are modelled as a small-step transition system
  (`LockSys.Step`) over two cooperating processes.
-/

/-- A JSON value as produced by Python's `json.load`: `null`, booleans,
numbers (modelled as integers), strings, arrays and objects. -/
inductive JsonValue where
  | null : JsonValue
  | bool (b : Bool) : JsonValue
  | num (n : Int) : JsonValue
  | str (s : String) : JsonValue
  | arr (xs : List JsonValue) : JsonValue
  | obj (fields : List (String × JsonValue)) : JsonValue

/-- The whole persisted document: a mapping from string keys to values,
modelled as an insertion-ordered association list (a Python `dict`). -/
def Doc := List (String × JsonValue)

/-- Python `d.get(k)` without a default: the first binding of `k`, if any. -/
def alistLookup (k : String) : List (String × JsonValue) → Option JsonValue
  | [] => none
  | (k', v) :: rest => if k' = k then some v else alistLookup k rest

/-- Python `d[k] = v` on a `dict`: replace the value in place when the key
is present, append a new binding otherwise. -/
def alistInsert (k : String) (v : JsonValue) :
    List (String × JsonValue) → List (String × JsonValue)
  | [] => [(k, v)]
  | (k', v') :: rest =>
      if k' = k then (k', v) :: rest else (k', v') :: alistInsert k v rest

/-- Python `d.pop(k, None)`'s effect on the dictionary: drop the binding of
`k` when present, leave the dictionary unchanged otherwise. -/
def alistErase (k : String) :
    List (String × JsonValue) → List (String × JsonValue)
  | [] => []
  | (k', v') :: rest =>
      if k' = k then rest else (k', v') :: alistErase k rest

/-- Python `d.update(other)`: assign each binding of `other`, in order,
into `d`. -/
def alistUpdateAll (d updates : List (String × JsonValue)) :
    List (String × JsonValue) :=
  updates.foldl (fun acc kv => alistInsert kv.1 kv.2 acc) d

/-- Whether a value is a Python `dict` (`isinstance(v, dict)`). -/
def JsonValue.isObj : JsonValue → Bool
  | .obj _ => true
  | _ => false

/-- Models of the exceptions the store can raise. -/
inductive PyError where
  /-- Models `json.JSONDecodeError` from `json.load` on a malformed file (the
  spec's `CorruptDocument` kind). -/
  | jsonDecodeError : PyError
  /-- The `AttributeError`/`TypeError` raised when the parsed document is
  valid JSON but not an object, so the dictionary operations
  (`.get`, `[...]=`, `.pop`, `in`) fail on it before any write. -/
  | nonMappingDocument : PyError
  /-- The `ValueError("Cannot increment field on non-dict value for key
  ...")` raised by `increment` (the spec's `InvalidFieldType` kind). -/
  | invalidFieldType (key : String) : PyError
  /-- The `TypeError` raised by Python `+` when `increment` adds `amount`
  to a non-numeric existing field value. -/
  | typeError : PyError

/-- Python's numeric view of a JSON value for `+`: numbers are themselves,
booleans count as `0`/`1` (Python has `True + 1 == 2`), and every other
value makes `+` raise `TypeError`. -/
def pyToNumber : JsonValue → Option Int
  | .num n => some n
  | .bool b => some (if b then 1 else 0)
  | _ => none

namespace Store

/-- Python `get`: `data.get(key)` — the bound value, or Python `None` (JSON null)
when the key is absent.  A key bound to JSON `null` also comes back as
Python `None`, so the two cases are indistinguishable to the caller. -/
def get (data : Doc) (key : String) : JsonValue :=
  (alistLookup key data).getD JsonValue.null

/-- Python `set`: `data[key] = value`. -/
def set (data : Doc) (key : String) (value : JsonValue) : Doc :=
  alistInsert key value data

/-- Python `update`: if `key in data` and `data[key]` is a `dict`, merge `updates`
into it with `data[key].update(updates)`; otherwise `data[key] = updates`. -/
def update (data : Doc) (key : String)
    (updates : List (String × JsonValue)) : Doc :=
  match alistLookup key data with
  | some (JsonValue.obj fields) =>
      alistInsert key (JsonValue.obj (alistUpdateAll fields updates)) data
  | some _ => alistInsert key (JsonValue.obj updates) data
  | none => alistInsert key (JsonValue.obj updates) data

/-- Python `delete`: `data.pop(key, None)`. -/
def delete (data : Doc) (key : String) : Doc :=
  alistErase key data

/-- Python `increment` on the in-memory document, following the source line by
line: ensure `data[key]` exists (`data[key] = {}` when absent), raise
`ValueError` when `data[key]` is not a `dict`, then
`data[key][field] = data[key].get(field, 0) + amount` — where Python `+`
raises `TypeError` when the existing field value is not numeric.  Returns
the updated document and the new field value. -/
def increment (data : Doc) (key field : String) (amount : Int) :
    Except PyError (Doc × Int) :=
  let data' : Doc :=
    match alistLookup key data with
    | none => alistInsert key (JsonValue.obj []) data
    | some _ => data
  match alistLookup key data' with
  | some (JsonValue.obj fields) =>
      match pyToNumber ((alistLookup field fields).getD (JsonValue.num 0)) with
      | some n =>
          let newVal := n + amount
          Except.ok
            (alistInsert key
              (JsonValue.obj (alistInsert field (JsonValue.num newVal) fields))
              data', newVal)
      | none => Except.error PyError.typeError
  | some _ => Except.error (PyError.invalidFieldType key)
  | none => Except.error (PyError.invalidFieldType key)

/-- Python `increment` at the persisted-document level: the source raises before
`_write_all`, so on an exception the persisted document is the one read at
the start; on success it is the mutated one. -/
def incrementRun (st : Doc) (key field : String) (amount : Int) :
    Doc × Except PyError Int :=
  match increment st key field amount with
  | Except.ok (d, n) => (d, Except.ok n)
  | Except.error e => (st, Except.error e)

end Store

/-- The content of the document file as `_read_all` sees it: the file may
be missing, may parse (`json.load`) as some JSON value, or may fail to
parse at all. -/
inductive FileContent where
  | missing : FileContent
  | json (v : JsonValue) : FileContent
  | malformed : FileContent

/-- Python `_read_all`: return an empty dictionary when the file does not exist, the parsed value
when `json.load` succeeds, and raise `json.JSONDecodeError` otherwise.
Note the source returns whatever value `json.load` produced, even when it
is not an object; the dictionary operations then fail on it. -/
def readAll : FileContent → Except PyError JsonValue
  | FileContent.missing => Except.ok (JsonValue.obj [])
  | FileContent.json v => Except.ok v
  | FileContent.malformed => Except.error PyError.jsonDecodeError

namespace Store

/-- Python `get` against the document file: `_read_all`, then `data.get(key)`.
On a parsed non-object document `data.get` raises (`AttributeError`: none
of `list`/`str`/`int`/`bool`/`NoneType` has `.get`). -/
def getFs (fc : FileContent) (key : String) : Except PyError JsonValue :=
  match readAll fc with
  | Except.error e => Except.error e
  | Except.ok (JsonValue.obj data) => Except.ok (Store.get data key)
  | Except.ok _ => Except.error PyError.nonMappingDocument

/-- Python `set` against the document file: read, assign, write.  On a parsed
non-object document the assignment `data[key] = value` raises before
`_write_all`, leaving the file unchanged.  Returns the resulting file
content and the outcome. -/
def setFs (fc : FileContent) (key : String) (value : JsonValue) :
    FileContent × Except PyError Unit :=
  match readAll fc with
  | Except.error e => (fc, Except.error e)
  | Except.ok (JsonValue.obj data) =>
      (FileContent.json (JsonValue.obj (Store.set data key value)), Except.ok ())
  | Except.ok _ => (fc, Except.error PyError.nonMappingDocument)

/-- Python `update` against the document file.  On a parsed non-object document
the dictionary operations (`key in data`, `data[key]`, `data[key] = ...`)
raise a `TypeError` before `_write_all` on every path. -/
def updateFs (fc : FileContent) (key : String)
    (updates : List (String × JsonValue)) : FileContent × Except PyError Unit :=
  match readAll fc with
  | Except.error e => (fc, Except.error e)
  | Except.ok (JsonValue.obj data) =>
      (FileContent.json (JsonValue.obj (Store.update data key updates)), Except.ok ())
  | Except.ok _ => (fc, Except.error PyError.nonMappingDocument)

/-- Python `delete` against the document file.  On a parsed non-object document
`data.pop(key, None)` raises before `_write_all`. -/
def deleteFs (fc : FileContent) (key : String) :
    FileContent × Except PyError Unit :=
  match readAll fc with
  | Except.error e => (fc, Except.error e)
  | Except.ok (JsonValue.obj data) =>
      (FileContent.json (JsonValue.obj (Store.delete data key)), Except.ok ())
  | Except.ok _ => (fc, Except.error PyError.nonMappingDocument)

/-- Python `increment` against the document file.  On a parsed non-object document
the membership test / indexing raises before `_write_all`; on a parsed
object it behaves as `Store.incrementRun`. -/
def incrementFs (fc : FileContent) (key field : String) (amount : Int) :
    FileContent × Except PyError Int :=
  match readAll fc with
  | Except.error e => (fc, Except.error e)
  | Except.ok (JsonValue.obj data) =>
      match Store.incrementRun data key field amount with
      | (d, Except.ok n) => (FileContent.json (JsonValue.obj d), Except.ok n)
      | (_, Except.error e) => (fc, Except.error e)
  | Except.ok _ => (fc, Except.error PyError.nonMappingDocument)

end Store

/-- The filesystem state `__init__` touches: whether the parent directory
exists, and the document file. -/
structure FsState where
  dirExists : Bool
  file : FileContent

/-- Python `Store.__init__`: make the parent directory (with
parents=True, exist_ok=True), then write an empty document via
`_write_all` only when the file does not already exist. -/
def Store.construct (fs : FsState) : FsState :=
  let fs' : FsState := { dirExists := true, file := fs.file }
  match fs'.file with
  | FileContent.missing => { dirExists := true, file := FileContent.json (JsonValue.obj []) }
  | _ => fs'

/-- The on-disk neighbourhood of `_write_all`: the target document file and
the sibling `.tmp` file, each either absent or holding some serialized
content. -/
structure DiskState where
  target : Option String
  temp : Option String

/-- Python `_write_all` with an abstract serializer (`json.dump` may raise on
unserializable data): open+dump into the `.tmp` sibling, then
`temp_path.replace(self.storage_path)`.  When the dump raises, the rename
never happens: the temp file may be left holding partial output (`junk`),
and the target keeps its previous content.  The boolean reports whether
the write committed. -/
def writeAllDisk (ser : JsonValue → Option String) (junk : String)
    (disk : DiskState) (v : JsonValue) : DiskState × Bool :=
  match ser v with
  | some s => ({ target := some s, temp := none }, true)
  | none => ({ target := disk.target, temp := some junk }, false)

namespace LockSys

/-- Where a process is inside a mutating operation's
`with self._lock(): data = self._read_all(); ...; self._write_all(data)`
block: not started, holding the lock (after `flock(LOCK_EX)` returned),
holding the lock with the document read into `data`, holding the lock with
the mutated document written back, and finished (lock released). -/
inductive Phase where
  | idle : Phase
  | acquired : Phase
  | hasRead (d : Doc) : Phase
  | written : Phase
  | done : Phase

/-- Global state of two cooperating processes sharing one document path:
the holder of the exclusive advisory lock on the sibling `.lock` file (the
same `lockPath` for both, since both derive it from the same document
path), the persisted document, and each process's phase. -/
structure SysState where
  lock : Option Bool
  doc : Doc
  pc : Bool → Phase

/-- Updates one process's phase. -/
def updPc (pc : Bool → Phase) (i : Bool) (ph : Phase) : Bool → Phase :=
  fun j => if j = i then ph else pc j

/-- Small-step semantics of the locked read-modify-write cycle, for two
processes each running one mutating operation whose in-memory effect on
the read document is `op i`.  `fcntl.flock(LOCK_EX)` blocks until no one
holds the lock, so `acquire` fires only when `lock = none`; `read` and
`write` happen strictly inside the critical section; `release` is the
`__exit__` unlock. -/
inductive Step (op : Bool → Doc → Doc) : SysState → SysState → Prop where
  | acquire (i : Bool) (s : SysState) :
      s.pc i = Phase.idle → s.lock = none →
      Step op s { lock := some i, doc := s.doc, pc := updPc s.pc i Phase.acquired }
  | read (i : Bool) (s : SysState) :
      s.pc i = Phase.acquired →
      Step op s { lock := s.lock, doc := s.doc, pc := updPc s.pc i (Phase.hasRead s.doc) }
  | write (i : Bool) (s : SysState) (d : Doc) :
      s.pc i = Phase.hasRead d →
      Step op s { lock := s.lock, doc := op i d, pc := updPc s.pc i Phase.written }
  | release (i : Bool) (s : SysState) :
      s.pc i = Phase.written →
      Step op s { lock := none, doc := s.doc, pc := updPc s.pc i Phase.done }

/-- The initial state: nobody holds the lock, both processes are about to
start, the document holds `d0`. -/
def initState (d0 : Doc) : SysState :=
  { lock := none, doc := d0, pc := fun _ => Phase.idle }

/-- A state reachable from `initState d0` by interleaved steps of the two
processes. -/
def Reachable (op : Bool → Doc → Doc) (d0 : Doc) (s : SysState) : Prop :=
  Relation.ReflTransGen (Step op) (initState d0) s

/-- Whether a phase is inside the critical section (holds the lock). -/
def Phase.holdsLock : Phase → Prop
  | Phase.acquired => True
  | Phase.hasRead _ => True
  | Phase.written => True
  | _ => False

/-- The regression scenario of issue #42: process `i` runs
`store.update(key, updates i)` where the two partial mappings touch
disjoint fields. -/
def updateOp (key : String) (updates : Bool → List (String × JsonValue)) :
    Bool → Doc → Doc :=
  fun i d => Store.update d key (updates i)

/-- The value stored at `fld` inside the mapping at `key`, if any. -/
def fieldVal (key fld : String) (doc : Doc) : Option JsonValue :=
  match alistLookup key doc with
  | some (JsonValue.obj m) => alistLookup fld m
  | _ => none

/-- The operation pair of one concrete execution: process `true` runs
`update("k", mapping "a" to 1)` and process `false` runs
`update("k", mapping "b" to 2)`, against the same document path. -/
def traceOp : Bool → Doc → Doc :=
  updateOp "k"
    (fun i => [(if i then "a" else "b",
                if i then JsonValue.num 1 else JsonValue.num 2)])

/-- Concrete execution, state 0: both processes idle, empty document. -/
def traceS0 : SysState := initState []

/-- Concrete execution, state 1: process `true` acquired the lock. -/
def traceS1 : SysState :=
  { lock := some true, doc := traceS0.doc, pc := updPc traceS0.pc true Phase.acquired }

/-- Concrete execution, state 2: process `true` read the document. -/
def traceS2 : SysState :=
  { lock := traceS1.lock, doc := traceS1.doc,
    pc := updPc traceS1.pc true (Phase.hasRead traceS1.doc) }

/-- Concrete execution, state 3: process `true` wrote its update. -/
def traceS3 : SysState :=
  { lock := traceS2.lock, doc := traceOp true traceS1.doc,
    pc := updPc traceS2.pc true Phase.written }

/-- Concrete execution, state 4: process `true` released the lock. -/
def traceS4 : SysState :=
  { lock := none, doc := traceS3.doc, pc := updPc traceS3.pc true Phase.done }

/-- Concrete execution, state 5: process `false` acquired the lock. -/
def traceS5 : SysState :=
  { lock := some false, doc := traceS4.doc, pc := updPc traceS4.pc false Phase.acquired }

/-- Concrete execution, state 6: process `false` read the document. -/
def traceS6 : SysState :=
  { lock := traceS5.lock, doc := traceS5.doc,
    pc := updPc traceS5.pc false (Phase.hasRead traceS5.doc) }

/-- Concrete execution, state 7: process `false` wrote its update. -/
def traceS7 : SysState :=
  { lock := traceS6.lock, doc := traceOp false traceS5.doc,
    pc := updPc traceS6.pc false Phase.written }

/-- Concrete execution, state 8: process `false` released the lock; both
processes are done. -/
def traceS8 : SysState :=
  { lock := none, doc := traceS7.doc, pc := updPc traceS7.pc false Phase.done }

end LockSys

/-- The mapping currently stored at `key`, when `key` is absent (Python's
ensure-key branch makes it the empty mapping) or bound to a mapping. -/
def baseFields (d : Doc) (key : String) : List (String × JsonValue) :=
  match alistLookup key d with
  | some (JsonValue.obj m) => m
  | _ => []

/-- The numeric value `increment` starts from: `0` when the key is absent,
`data[key].get(field, 0)` viewed as a Python number when `data[key]` is a
mapping, and undefined (`none`) when `data[key]` is a non-mapping or the
existing field value is non-numeric. -/
def curFieldNum (d : Doc) (key field : String) : Option Int :=
  match alistLookup key d with
  | none => some 0
  | some (JsonValue.obj m) =>
      pyToNumber ((alistLookup field m).getD (JsonValue.num 0))
  | some _ => none

/-- Whether an existing document file fails to parse as the expected
structure: it is not valid JSON at all, or parses to a non-object value.
A missing file is not an existing file. -/
def failsAsMapping : FileContent → Prop
  | FileContent.missing => False
  | FileContent.json v => v.isObj = false
  | FileContent.malformed => True

/-- The error each operation surfaces on such a file:
`json.JSONDecodeError` when the JSON does not parse, and the
`AttributeError`/`TypeError` family when it parses to a non-object. -/
def surfacedError : FileContent → PyError
  | FileContent.malformed => PyError.jsonDecodeError
  | _ => PyError.nonMappingDocument

/-! ## Association-list lemmas -/

theorem alistLookup_insert_self (d : List (String × JsonValue)) (k : String)
    (v : JsonValue) : alistLookup k (alistInsert k v d) = some v := by
  induction d with
  | nil => simp [alistInsert, alistLookup]
  | cons hd tl ih =>
      obtain ⟨k', v'⟩ := hd
      by_cases h : k' = k <;> simp [alistInsert, alistLookup, h, ih]

theorem alistLookup_insert_ne (d : List (String × JsonValue)) (k k' : String)
    (v : JsonValue) (h : k ≠ k') :
    alistLookup k' (alistInsert k v d) = alistLookup k' d := by
  induction d with
  | nil => simp [alistInsert, alistLookup, h]
  | cons hd tl ih =>
      obtain ⟨g, w⟩ := hd
      by_cases hg : g = k
      · subst hg
        simp [alistInsert, alistLookup, h]
      · simp [alistInsert, alistLookup, hg, ih]

theorem alistErase_of_not_mem (d : List (String × JsonValue)) (k : String)
    (h : alistLookup k d = none) : alistErase k d = d := by
  induction d with
  | nil => rfl
  | cons hd tl ih =>
      obtain ⟨g, w⟩ := hd
      by_cases hg : g = k
      · simp [alistLookup, hg] at h
      · simp [alistLookup, hg] at h
        simp [alistErase, hg, ih h]

theorem alistUpdateAll_cons (m : List (String × JsonValue)) (g : String)
    (v : JsonValue) (p : List (String × JsonValue)) :
    alistUpdateAll m ((g, v) :: p) = alistUpdateAll (alistInsert g v m) p := rfl

theorem alistLookup_updateAll_not_mem (p m : List (String × JsonValue))
    (f : String) (h : alistLookup f p = none) :
    alistLookup f (alistUpdateAll m p) = alistLookup f m := by
  induction p generalizing m with
  | nil => rfl
  | cons hd tl ih =>
      obtain ⟨g, v⟩ := hd
      by_cases hg : g = f
      · simp [alistLookup, hg] at h
      · simp [alistLookup, hg] at h
        rw [alistUpdateAll_cons, ih _ h, alistLookup_insert_ne _ _ _ _ hg]

theorem alistLookup_mem_keys (d : List (String × JsonValue)) (k : String)
    (v : JsonValue) (h : alistLookup k d = some v) : k ∈ d.map Prod.fst := by
  induction d with
  | nil => simp [alistLookup] at h
  | cons hd tl ih =>
      obtain ⟨g, w⟩ := hd
      by_cases hg : g = k
      · simp [hg]
      · simp only [alistLookup, if_neg hg] at h
        simp [ih h]

theorem alistLookup_updateAll_mem (p m : List (String × JsonValue))
    (f : String) (v : JsonValue) (hnd : (p.map Prod.fst).Nodup)
    (h : alistLookup f p = some v) :
    alistLookup f (alistUpdateAll m p) = some v := by
  induction p generalizing m with
  | nil => simp [alistLookup] at h
  | cons hd tl ih =>
      obtain ⟨g, w⟩ := hd
      simp only [List.map_cons, List.nodup_cons] at hnd
      by_cases hg : g = f
      · subst hg
        simp only [alistLookup, if_pos rfl] at h
        cases h
        have hnone : alistLookup g tl = none := by
          rcases hv : alistLookup g tl with _ | u
          · rfl
          · exact absurd (alistLookup_mem_keys tl g u hv) hnd.1
        rw [alistUpdateAll_cons, alistLookup_updateAll_not_mem _ _ _ hnone,
          alistLookup_insert_self]
      · simp only [alistLookup, if_neg hg] at h
        rw [alistUpdateAll_cons, ih _ hnd.2 h]

/-! ## No-lost-update: invariant of the lock protocol -/

namespace LockSys

theorem fieldVal_update_self (d : Doc) (key f : String) (v : JsonValue) :
    fieldVal key f (Store.update d key [(f, v)]) = some v := by
  unfold Store.update fieldVal
  rcases h : alistLookup key d with _ | w
  · rw [alistLookup_insert_self]
    simp [alistLookup]
  · cases w <;>
      · rw [alistLookup_insert_self]
        simp [alistUpdateAll, alistLookup_insert_self, alistLookup]

theorem fieldVal_update_other (d : Doc) (key f g : String) (v w : JsonValue)
    (hfg : f ≠ g) (h : fieldVal key g d = some w) :
    fieldVal key g (Store.update d key [(f, v)]) = some w := by
  unfold fieldVal at h
  rcases hk : alistLookup key d with _ | u
  · rw [hk] at h; cases h
  · rw [hk] at h
    cases u with
    | obj m =>
        unfold Store.update fieldVal
        rw [hk, alistLookup_insert_self]
        show alistLookup g (alistUpdateAll m [(f, v)]) = some w
        have : alistUpdateAll m [(f, v)] = alistInsert f v m := rfl
        rw [this, alistLookup_insert_ne _ _ _ _ hfg]
        exact h
    | null => cases h
    | bool b => cases h
    | num n => cases h
    | str s => cases h
    | arr xs => cases h

theorem updPc_same (pc : Bool → Phase) (i : Bool) (ph : Phase) :
    updPc pc i ph i = ph := by simp [updPc]

theorem updPc_other (pc : Bool → Phase) (i : Bool) (ph : Phase) (j : Bool)
    (h : j ≠ i) : updPc pc i ph j = pc j := by simp [updPc, h]

/-- The inductive invariant of the protocol: (1) a process inside the
critical section holds the lock; (2) a process that has read the document
and not yet written still sees the current document (nobody can have
written in between, as they would need the lock); (3) once a process has
written, its field update is present in the document. -/
structure Inv (key : String) (fld : Bool → String) (vals : Bool → JsonValue)
    (s : SysState) : Prop where
  lockInv : ∀ i, (s.pc i).holdsLock → s.lock = some i
  readInv : ∀ i d, s.pc i = Phase.hasRead d → d = s.doc
  docInv : ∀ i, s.pc i = Phase.written ∨ s.pc i = Phase.done →
    fieldVal key (fld i) s.doc = some (vals i)

theorem inv_init (key : String) (fld : Bool → String) (vals : Bool → JsonValue)
    (d0 : Doc) : Inv key fld vals (initState d0) := by
  refine ⟨?_, ?_, ?_⟩
  · intro i hi
    simp [initState, Phase.holdsLock] at hi
  · intro i d hd
    simp [initState] at hd
  · intro i hi
    simp [initState] at hi

theorem inv_step (key : String) (fld : Bool → String) (vals : Bool → JsonValue)
    (hne : fld true ≠ fld false) {s s' : SysState}
    (hstep : Step (updateOp key (fun i => [(fld i, vals i)])) s s')
    (hs : Inv key fld vals s) : Inv key fld vals s' := by
  have hfld : ∀ i j : Bool, i ≠ j → fld i ≠ fld j := by
    intro i j hij
    cases i <;> cases j
    · exact absurd rfl hij
    · exact fun h => hne h.symm
    · exact hne
    · exact absurd rfl hij
  cases hstep with
  | acquire i _ hpc hlock =>
      refine ⟨?_, ?_, ?_⟩
      · intro j hj
        simp only [] at hj ⊢
        by_cases hji : j = i
        · subst hji
          rfl
        · rw [updPc_other _ _ _ _ hji] at hj
          have h1 := hs.lockInv j hj
          rw [hlock] at h1
          exact Option.noConfusion h1
      · intro j d hd
        simp only [] at hd ⊢
        by_cases hji : j = i
        · subst hji
          rw [updPc_same] at hd
          exact Phase.noConfusion hd
        · rw [updPc_other _ _ _ _ hji] at hd
          exact hs.readInv j d hd
      · intro j hj
        simp only [] at hj ⊢
        by_cases hji : j = i
        · subst hji
          rcases hj with h | h <;>
            · rw [updPc_same] at h
              exact Phase.noConfusion h
        · rcases hj with h | h <;> rw [updPc_other _ _ _ _ hji] at h
          · exact hs.docInv j (Or.inl h)
          · exact hs.docInv j (Or.inr h)
  | read i _ hpc =>
      refine ⟨?_, ?_, ?_⟩
      · intro j hj
        simp only [] at hj ⊢
        by_cases hji : j = i
        · subst hji
          exact hs.lockInv j (by rw [hpc]; trivial)
        · rw [updPc_other _ _ _ _ hji] at hj
          exact hs.lockInv j hj
      · intro j d hd
        simp only [] at hd ⊢
        by_cases hji : j = i
        · subst hji
          rw [updPc_same] at hd
          cases hd
          rfl
        · rw [updPc_other _ _ _ _ hji] at hd
          exact hs.readInv j d hd
      · intro j hj
        simp only [] at hj ⊢
        by_cases hji : j = i
        · subst hji
          rcases hj with h | h <;>
            · rw [updPc_same] at h
              exact Phase.noConfusion h
        · rcases hj with h | h <;> rw [updPc_other _ _ _ _ hji] at h
          · exact hs.docInv j (Or.inl h)
          · exact hs.docInv j (Or.inr h)
  | write i _ d hpc =>
      refine ⟨?_, ?_, ?_⟩
      · intro j hj
        simp only [] at hj ⊢
        by_cases hji : j = i
        · subst hji
          exact hs.lockInv j (by rw [hpc]; trivial)
        · rw [updPc_other _ _ _ _ hji] at hj
          exact hs.lockInv j hj
      · intro j d' hd'
        simp only [] at hd' ⊢
        by_cases hji : j = i
        · subst hji
          rw [updPc_same] at hd'
          exact Phase.noConfusion hd'
        · rw [updPc_other _ _ _ _ hji] at hd'
          have h1 := hs.lockInv j (by rw [hd']; trivial)
          have h2 := hs.lockInv i (by rw [hpc]; trivial)
          rw [h1] at h2
          injection h2 with h3
          exact absurd h3 hji
      · intro j hj
        simp only [] at hj ⊢
        by_cases hji : j = i
        · subst hji
          exact fieldVal_update_self d key (fld j) (vals j)
        · rcases hj with h | h
          · rw [updPc_other _ _ _ _ hji] at h
            have h1 := hs.lockInv j (by rw [h]; trivial)
            have h2 := hs.lockInv i (by rw [hpc]; trivial)
            rw [h1] at h2
            injection h2 with h3
            exact absurd h3 hji
          · rw [updPc_other _ _ _ _ hji] at h
            have hfv := hs.docInv j (Or.inr h)
            have hdd := hs.readInv i d hpc
            subst hdd
            exact fieldVal_update_other s.doc key (fld i) (fld j) (vals i)
              (vals j) (hfld i j (fun hh => hji hh.symm)) hfv
  | release i _ hpc =>
      refine ⟨?_, ?_, ?_⟩
      · intro j hj
        simp only [] at hj ⊢
        by_cases hji : j = i
        · subst hji
          rw [updPc_same] at hj
          simp [Phase.holdsLock] at hj
        · rw [updPc_other _ _ _ _ hji] at hj
          have h1 := hs.lockInv j hj
          have h2 := hs.lockInv i (by rw [hpc]; trivial)
          rw [h1] at h2
          injection h2 with h3
          exact absurd h3 hji
      · intro j d hd
        simp only [] at hd ⊢
        by_cases hji : j = i
        · subst hji
          rw [updPc_same] at hd
          exact Phase.noConfusion hd
        · rw [updPc_other _ _ _ _ hji] at hd
          exact hs.readInv j d hd
      · intro j hj
        simp only [] at hj ⊢
        by_cases hji : j = i
        · subst hji
          exact hs.docInv j (Or.inl hpc)
        · rcases hj with h | h <;> rw [updPc_other _ _ _ _ hji] at h
          · exact hs.docInv j (Or.inl h)
          · exact hs.docInv j (Or.inr h)

theorem reachable_inv (key : String) (fld : Bool → String)
    (vals : Bool → JsonValue) (hne : fld true ≠ fld false) (d0 : Doc)
    {s : SysState}
    (h : Reachable (updateOp key (fun i => [(fld i, vals i)])) d0 s) :
    Inv key fld vals s := by
  unfold Reachable at h
  induction h with
  | refl => exact inv_init key fld vals d0
  | tail _ hstep ih => exact inv_step key fld vals hne hstep ih

end LockSys

/-! ## Evaluation lemmas for `increment` -/

theorem increment_eq_of_absent (d : Doc) (key field : String) (amount : Int)
    (hk : alistLookup key d = none) :
    Store.increment d key field amount = Except.ok
      (alistInsert key (JsonValue.obj [(field, JsonValue.num (0 + amount))])
        (alistInsert key (JsonValue.obj []) d), 0 + amount) := by
  unfold Store.increment
  simp only [hk]
  rw [alistLookup_insert_self]
  simp [alistLookup, pyToNumber, alistInsert]

theorem increment_eq_of_obj (d : Doc) (key field : String) (amount : Int)
    (m : List (String × JsonValue)) (n : Int)
    (hk : alistLookup key d = some (JsonValue.obj m))
    (hn : pyToNumber ((alistLookup field m).getD (JsonValue.num 0)) = some n) :
    Store.increment d key field amount = Except.ok
      (alistInsert key
        (JsonValue.obj (alistInsert field (JsonValue.num (n + amount)) m)) d,
       n + amount) := by
  unfold Store.increment
  simp only [hk, hn]

/-- C2: when the value stored at `key` is present but not a mapping,
`increment` fails with the `InvalidFieldType` error kind (the source's
`ValueError`), raised synchronously before `_write_all` is reached, so the
persisted document is left unchanged. -/
theorem c2_increment_invalid_field_type (d : Doc) (key field : String)
    (amount : Int) (v : JsonValue) (hv : alistLookup key d = some v)
    (hobj : v.isObj = false) :
    Store.incrementRun d key field amount
      = (d, Except.error (PyError.invalidFieldType key)) := by
  cases v with
  | obj m => simp [JsonValue.isObj] at hobj
  | null => simp [Store.incrementRun, Store.increment, hv]
  | bool b => simp [Store.incrementRun, Store.increment, hv]
  | num n => simp [Store.incrementRun, Store.increment, hv]
  | str s0 => simp [Store.incrementRun, Store.increment, hv]
  | arr xs => simp [Store.incrementRun, Store.increment, hv]

theorem c2_increment_invalid_field_type_witness :
    alistLookup "k" [("k", JsonValue.str "s")] = some (JsonValue.str "s") ∧
    (JsonValue.str "s").isObj = false ∧
    Store.incrementRun [("k", JsonValue.str "s")] "k" "f" 1
      = ([("k", JsonValue.str "s")],
         Except.error (PyError.invalidFieldType "k")) :=
  ⟨rfl, rfl, c2_increment_invalid_field_type _ "k" "f" 1 _ rfl rfl⟩

/-- C3, counterexample: the key "k" is mapped to a mapping, so the claim
promises the increment is applied, persisted and its result returned; but
the existing field value is the string "x", so the source's
`data[key].get(field, 0) + amount` raises `TypeError` and nothing is
persisted. -/
theorem c3_counterexample_non_numeric_field :
    Store.incrementRun [("k", JsonValue.obj [("f", JsonValue.str "x")])] "k" "f" 1
      = ([("k", JsonValue.obj [("f", JsonValue.str "x")])],
         Except.error PyError.typeError) := rfl

/-- C3, amended: when the key is absent or mapped to a mapping AND the
existing field value is absent or numeric (`curFieldNum` returns the start
value `n`), `increment` creates an empty mapping for an absent key, sets
the field to `n + amount`, persists exactly that change (all other keys
and fields unchanged) and returns the new field value. -/
theorem c3_increment_applies_when_numeric (d : Doc) (key field : String)
    (amount : Int) (n : Int) (h : curFieldNum d key field = some n) :
    ∃ d' m',
      Store.incrementRun d key field amount = (d', Except.ok (n + amount)) ∧
      alistLookup key d' = some (JsonValue.obj m') ∧
      alistLookup field m' = some (JsonValue.num (n + amount)) ∧
      (∀ k', k' ≠ key → alistLookup k' d' = alistLookup k' d) ∧
      (∀ g, g ≠ field → alistLookup g m' = alistLookup g (baseFields d key)) := by
  unfold curFieldNum at h
  rcases hk : alistLookup key d with _ | v
  · rw [hk] at h
    replace h : (some 0 : Option Int) = some n := h
    injection h with h0
    subst h0
    have hinc := increment_eq_of_absent d key field amount hk
    refine ⟨alistInsert key (JsonValue.obj [(field, JsonValue.num (0 + amount))])
        (alistInsert key (JsonValue.obj []) d),
      [(field, JsonValue.num (0 + amount))], ?_, ?_, ?_, ?_, ?_⟩
    · unfold Store.incrementRun
      rw [hinc]
    · exact alistLookup_insert_self _ _ _
    · simp [alistLookup]
    · intro k' hk'
      rw [alistLookup_insert_ne _ _ _ _ (fun hh => hk' hh.symm),
        alistLookup_insert_ne _ _ _ _ (fun hh => hk' hh.symm)]
    · intro g hg
      unfold baseFields
      rw [hk]
      simp [alistLookup, Ne.symm hg]
  · cases v with
    | obj m =>
        rw [hk] at h
        replace h : pyToNumber ((alistLookup field m).getD (JsonValue.num 0))
            = some n := h
        have hinc := increment_eq_of_obj d key field amount m n hk h
        refine ⟨alistInsert key
            (JsonValue.obj (alistInsert field (JsonValue.num (n + amount)) m)) d,
          alistInsert field (JsonValue.num (n + amount)) m, ?_, ?_, ?_, ?_, ?_⟩
        · unfold Store.incrementRun
          rw [hinc]
        · exact alistLookup_insert_self _ _ _
        · exact alistLookup_insert_self _ _ _
        · intro k' hk'
          exact alistLookup_insert_ne _ _ _ _ (fun hh => hk' hh.symm)
        · intro g hg
          unfold baseFields
          rw [hk]
          exact alistLookup_insert_ne _ _ _ _ (fun hh => hg hh.symm)
    | null =>
        rw [hk] at h
        exact Option.noConfusion h
    | bool b =>
        rw [hk] at h
        exact Option.noConfusion h
    | num n' =>
        rw [hk] at h
        exact Option.noConfusion h
    | str s0 =>
        rw [hk] at h
        exact Option.noConfusion h
    | arr xs =>
        rw [hk] at h
        exact Option.noConfusion h

theorem c3_increment_applies_when_numeric_witness :
    curFieldNum [("k", JsonValue.obj [("f", JsonValue.num 4)])] "k" "f" = some 4 ∧
    (∃ d' m',
      Store.incrementRun [("k", JsonValue.obj [("f", JsonValue.num 4)])] "k" "f" 2
        = (d', Except.ok (4 + 2)) ∧
      alistLookup "k" d' = some (JsonValue.obj m') ∧
      alistLookup "f" m' = some (JsonValue.num (4 + 2)) ∧
      (∀ k', k' ≠ "k" → alistLookup k' d'
        = alistLookup k' [("k", JsonValue.obj [("f", JsonValue.num 4)])]) ∧
      (∀ g, g ≠ "f" → alistLookup g m'
        = alistLookup g (baseFields [("k", JsonValue.obj [("f", JsonValue.num 4)])] "k"))) :=
  ⟨rfl, c3_increment_applies_when_numeric _ "k" "f" 2 4 rfl⟩

/-- C4: `update(key, updates)` merges field-by-field into an existing
mapping — the keys of the partial mapping overwrite existing fields of the
same name, all other existing fields are retained — and replaces the value
wholesale when the key is absent or its value is not a mapping.  The
partial mapping is a Python `dict`, so its keys are distinct. -/
theorem c4_update_merge_semantics (d : Doc) (key : String)
    (p m : List (String × JsonValue)) (hnd : (p.map Prod.fst).Nodup) :
    (alistLookup key d = some (JsonValue.obj m) →
      alistLookup key (Store.update d key p)
        = some (JsonValue.obj (alistUpdateAll m p)) ∧
      (∀ f v, alistLookup f p = some v →
        alistLookup f (alistUpdateAll m p) = some v) ∧
      (∀ f, alistLookup f p = none →
        alistLookup f (alistUpdateAll m p) = alistLookup f m)) ∧
    ((∀ m', alistLookup key d ≠ some (JsonValue.obj m')) →
      alistLookup key (Store.update d key p) = some (JsonValue.obj p)) := by
  constructor
  · intro h
    unfold Store.update
    rw [h]
    refine ⟨alistLookup_insert_self _ _ _, ?_, ?_⟩
    · intro f v hf
      exact alistLookup_updateAll_mem p m f v hnd hf
    · intro f hf
      exact alistLookup_updateAll_not_mem p m f hf
  · intro h
    unfold Store.update
    rcases hk : alistLookup key d with _ | v
    · exact alistLookup_insert_self _ _ _
    · cases v with
      | obj m' => exact absurd hk (h m')
      | null => exact alistLookup_insert_self _ _ _
      | bool b => exact alistLookup_insert_self _ _ _
      | num n => exact alistLookup_insert_self _ _ _
      | str s0 => exact alistLookup_insert_self _ _ _
      | arr xs => exact alistLookup_insert_self _ _ _

theorem c4_update_merge_semantics_witness :
    alistLookup "k" (Store.update
        [("k", JsonValue.obj [("a", JsonValue.num 0), ("b", JsonValue.num 2)])]
        "k" [("a", JsonValue.num 1)])
      = some (JsonValue.obj [("a", JsonValue.num 1), ("b", JsonValue.num 2)]) ∧
    alistLookup "k2" (Store.update [] "k2" [("a", JsonValue.num 1)])
      = some (JsonValue.obj [("a", JsonValue.num 1)]) :=
  ⟨((c4_update_merge_semantics
      [("k", JsonValue.obj [("a", JsonValue.num 0), ("b", JsonValue.num 2)])]
      "k" [("a", JsonValue.num 1)] [("a", JsonValue.num 0), ("b", JsonValue.num 2)]
      (by decide)).1 rfl).1.trans rfl,
   (c4_update_merge_semantics [] "k2" [("a", JsonValue.num 1)] []
      (by decide)).2 (fun m' h => Option.noConfusion h)⟩

/-- C5: after `set(key, value)` the document maps `key` to `value`, and the
binding of every other key is exactly what it was before the call — the
whole document is rewritten, but only the assigned key's binding differs. -/
theorem c5_set_assigns_and_preserves_frame (d : Doc) (key : String)
    (value : JsonValue) :
    alistLookup key (Store.set d key value) = some value ∧
    ∀ k', k' ≠ key → alistLookup k' (Store.set d key value) = alistLookup k' d :=
  ⟨alistLookup_insert_self d key value,
   fun k' hk => alistLookup_insert_ne d key k' value (fun h => hk h.symm)⟩

theorem c5_set_assigns_and_preserves_frame_witness :
    alistLookup "k" (Store.set [("other", JsonValue.num 7)] "k" (JsonValue.bool true))
      = some (JsonValue.bool true) ∧
    alistLookup "other" (Store.set [("other", JsonValue.num 7)] "k" (JsonValue.bool true))
      = some (JsonValue.num 7) :=
  ⟨(c5_set_assigns_and_preserves_frame [("other", JsonValue.num 7)] "k"
      (JsonValue.bool true)).1,
   ((c5_set_assigns_and_preserves_frame [("other", JsonValue.num 7)] "k"
      (JsonValue.bool true)).2 "other" (by decide)).trans rfl⟩

/-- C9: deleting a key that is not present succeeds (the operation returns
normally — `data.pop(key, None)` raises nothing) and writes back a
document identical to the one read, so the document is unchanged. -/
theorem c9_delete_absent_is_noop (d : Doc) (key : String)
    (h : alistLookup key d = none) :
    Store.deleteFs (FileContent.json (JsonValue.obj d)) key
      = (FileContent.json (JsonValue.obj d), Except.ok ()) := by
  show (FileContent.json (JsonValue.obj (Store.delete d key)), Except.ok ()) = _
  have hd : Store.delete d key = d := alistErase_of_not_mem d key h
  rw [hd]

theorem c9_delete_absent_is_noop_witness :
    alistLookup "gone" [("k", JsonValue.num 3)] = none ∧
    Store.deleteFs (FileContent.json (JsonValue.obj [("k", JsonValue.num 3)])) "gone"
      = (FileContent.json (JsonValue.obj [("k", JsonValue.num 3)]), Except.ok ()) :=
  ⟨rfl, c9_delete_absent_is_noop [("k", JsonValue.num 3)] "gone" rfl⟩

/-- C10: `get` returns Python `None` (JSON null) both when the key is
absent and when the key is bound to JSON null, so a caller cannot tell the
two apart from the result of `get`. -/
theorem c10_get_conflates_null_and_absent (d : Doc) (key : String) :
    (alistLookup key d = none → Store.get d key = JsonValue.null) ∧
    (alistLookup key d = some JsonValue.null → Store.get d key = JsonValue.null) := by
  constructor <;> intro h <;> simp [Store.get, h]

theorem c10_get_conflates_null_and_absent_witness :
    Store.get [("k", JsonValue.null)] "k" = JsonValue.null ∧
    Store.get [] "k" = JsonValue.null :=
  ⟨(c10_get_conflates_null_and_absent [("k", JsonValue.null)] "k").2 rfl,
   (c10_get_conflates_null_and_absent [] "k").1 rfl⟩

/-- C6: every mutating operation either fully applies or has no observable
effect.  For the write path (`_write_all`): when serialization fails the
rename never happens, so the target file keeps its previous content and
nothing is committed (only the temp file may hold residue); when it
succeeds the target is replaced by the complete new serialization.  For
the one operation that can fail between read and write (`increment`), an
error leaves the persisted document exactly as read. -/
theorem c6_mutations_all_or_nothing (ser : JsonValue → Option String)
    (junk : String) (disk : DiskState) (v : JsonValue) :
    (ser v = none → writeAllDisk ser junk disk v
      = ({ target := disk.target, temp := some junk }, false)) ∧
    (∀ s, ser v = some s → writeAllDisk ser junk disk v
      = ({ target := some s, temp := none }, true)) ∧
    (∀ (d : Doc) (key field : String) (amount : Int) (e : PyError),
      Store.increment d key field amount = Except.error e →
      (Store.incrementRun d key field amount).1 = d) := by
  refine ⟨?_, ?_, ?_⟩
  · intro h
    unfold writeAllDisk
    rw [h]
  · intro s h
    unfold writeAllDisk
    rw [h]
  · intro d key field amount e he
    unfold Store.incrementRun
    rw [he]

theorem c6_mutations_all_or_nothing_witness :
    writeAllDisk (fun _ => none) "residue"
        { target := some "old", temp := none } JsonValue.null
      = ({ target := some "old", temp := some "residue" }, false) ∧
    writeAllDisk (fun _ => some "new") "residue"
        { target := some "old", temp := none } JsonValue.null
      = ({ target := some "new", temp := none }, true) ∧
    (Store.incrementRun [("k", JsonValue.num 0)] "k" "f" 1).1
      = [("k", JsonValue.num 0)] :=
  ⟨(c6_mutations_all_or_nothing (fun _ => none) "residue"
      { target := some "old", temp := none } JsonValue.null).1 rfl,
   (c6_mutations_all_or_nothing (fun _ => some "new") "residue"
      { target := some "old", temp := none } JsonValue.null).2.1 "new" rfl,
   (c6_mutations_all_or_nothing (fun _ => none) "residue"
      { target := some "old", temp := none } JsonValue.null).2.2
     [("k", JsonValue.num 0)] "k" "f" 1 (PyError.invalidFieldType "k") rfl⟩

/-- C7: construction always ensures the parent directory, never resets or
modifies an existing document file (whether parseable or not), initializes
a missing file to an empty, valid, readable document, and is idempotent. -/
theorem c7_construct_idempotent_init (fs : FsState) :
    (Store.construct fs).dirExists = true ∧
    (∀ v, fs.file = FileContent.json v →
      (Store.construct fs).file = FileContent.json v) ∧
    (fs.file = FileContent.malformed →
      (Store.construct fs).file = FileContent.malformed) ∧
    (fs.file = FileContent.missing →
      (Store.construct fs).file = FileContent.json (JsonValue.obj []) ∧
      readAll (Store.construct fs).file = Except.ok (JsonValue.obj [])) ∧
    Store.construct (Store.construct fs) = Store.construct fs := by
  obtain ⟨dir, file⟩ := fs
  cases file <;> simp [Store.construct, readAll]

theorem c7_construct_idempotent_init_witness :
    (Store.construct
        (FsState.mk false (FileContent.json (JsonValue.obj [("k", JsonValue.num 1)])))).file
      = FileContent.json (JsonValue.obj [("k", JsonValue.num 1)]) ∧
    (Store.construct { dirExists := false, file := FileContent.missing }).file
      = FileContent.json (JsonValue.obj []) ∧
    readAll (Store.construct { dirExists := false, file := FileContent.missing }).file
      = Except.ok (JsonValue.obj []) ∧
    Store.construct (Store.construct { dirExists := false, file := FileContent.missing })
      = Store.construct { dirExists := false, file := FileContent.missing } :=
  ⟨(c7_construct_idempotent_init _).2.1 _ rfl,
   ((c7_construct_idempotent_init
      { dirExists := false, file := FileContent.missing }).2.2.2.1 rfl).1,
   ((c7_construct_idempotent_init
      { dirExists := false, file := FileContent.missing }).2.2.2.1 rfl).2,
   (c7_construct_idempotent_init
      { dirExists := false, file := FileContent.missing }).2.2.2.2⟩

/-- C8: on an existing document file that fails to parse as the expected
structure — malformed JSON (`json.JSONDecodeError`, the spec's
`CorruptDocument`) or valid JSON that is not an object (the
`AttributeError`/`TypeError` family) — every operation that reads the
document surfaces an error to the caller, and every mutating operation
leaves the file untouched; the document is never silently treated as
empty. -/
theorem c8_unparseable_document_surfaces_error (fc : FileContent)
    (key field : String) (value : JsonValue)
    (updates : List (String × JsonValue)) (amount : Int)
    (h : failsAsMapping fc) :
    Store.getFs fc key = Except.error (surfacedError fc) ∧
    Store.setFs fc key value = (fc, Except.error (surfacedError fc)) ∧
    Store.updateFs fc key updates = (fc, Except.error (surfacedError fc)) ∧
    Store.deleteFs fc key = (fc, Except.error (surfacedError fc)) ∧
    Store.incrementFs fc key field amount
      = (fc, Except.error (surfacedError fc)) := by
  cases fc with
  | missing => exact h.elim
  | malformed => exact ⟨rfl, rfl, rfl, rfl, rfl⟩
  | json v =>
      cases v with
      | obj m => simp [failsAsMapping, JsonValue.isObj] at h
      | null => exact ⟨rfl, rfl, rfl, rfl, rfl⟩
      | bool b => exact ⟨rfl, rfl, rfl, rfl, rfl⟩
      | num n => exact ⟨rfl, rfl, rfl, rfl, rfl⟩
      | str s0 => exact ⟨rfl, rfl, rfl, rfl, rfl⟩
      | arr xs => exact ⟨rfl, rfl, rfl, rfl, rfl⟩

theorem c8_unparseable_document_surfaces_error_witness :
    failsAsMapping FileContent.malformed ∧
    (Store.getFs FileContent.malformed "k"
        = Except.error (surfacedError FileContent.malformed) ∧
      Store.setFs FileContent.malformed "k" JsonValue.null
        = (FileContent.malformed, Except.error (surfacedError FileContent.malformed)) ∧
      Store.updateFs FileContent.malformed "k" []
        = (FileContent.malformed, Except.error (surfacedError FileContent.malformed)) ∧
      Store.deleteFs FileContent.malformed "k"
        = (FileContent.malformed, Except.error (surfacedError FileContent.malformed)) ∧
      Store.incrementFs FileContent.malformed "k" "f" 1
        = (FileContent.malformed, Except.error (surfacedError FileContent.malformed))) :=
  ⟨trivial, c8_unparseable_document_surfaces_error FileContent.malformed
    "k" "f" JsonValue.null [] 1 trivial⟩

/-- C1: two concurrent mutating operations on the same document path that
update disjoint fields (`f1 ≠ f2`) of the same key both reach the final
document: in every interleaving the lock protocol admits (each operation
acquires the same per-path exclusive advisory lock before its
read-modify-write cycle), once both operations have completed, both field
updates are present — no lost update. -/
theorem c1_disjoint_field_updates_no_lost_update (key f1 f2 : String)
    (v1 v2 : JsonValue) (d0 : Doc) (s : LockSys.SysState) (hne : f1 ≠ f2)
    (hreach : LockSys.Reachable
      (LockSys.updateOp key
        (fun i => [(if i then f1 else f2, if i then v1 else v2)])) d0 s)
    (h1 : s.pc true = LockSys.Phase.done)
    (h2 : s.pc false = LockSys.Phase.done) :
    LockSys.fieldVal key f1 s.doc = some v1 ∧
    LockSys.fieldVal key f2 s.doc = some v2 := by
  have hinv := LockSys.reachable_inv key (fun i => if i then f1 else f2)
    (fun i => if i then v1 else v2) hne d0 hreach
  exact ⟨hinv.docInv true (Or.inr h1), hinv.docInv false (Or.inr h2)⟩

theorem c1_disjoint_field_updates_no_lost_update_witness :
    LockSys.fieldVal "k" "a" LockSys.traceS8.doc = some (JsonValue.num 1) ∧
    LockSys.fieldVal "k" "b" LockSys.traceS8.doc = some (JsonValue.num 2) := by
  have t1 : LockSys.Step LockSys.traceOp LockSys.traceS0 LockSys.traceS1 :=
    LockSys.Step.acquire true LockSys.traceS0 rfl rfl
  have t2 : LockSys.Step LockSys.traceOp LockSys.traceS1 LockSys.traceS2 :=
    LockSys.Step.read true LockSys.traceS1 rfl
  have t3 : LockSys.Step LockSys.traceOp LockSys.traceS2 LockSys.traceS3 :=
    LockSys.Step.write true LockSys.traceS2 LockSys.traceS1.doc rfl
  have t4 : LockSys.Step LockSys.traceOp LockSys.traceS3 LockSys.traceS4 :=
    LockSys.Step.release true LockSys.traceS3 rfl
  have t5 : LockSys.Step LockSys.traceOp LockSys.traceS4 LockSys.traceS5 :=
    LockSys.Step.acquire false LockSys.traceS4 rfl rfl
  have t6 : LockSys.Step LockSys.traceOp LockSys.traceS5 LockSys.traceS6 :=
    LockSys.Step.read false LockSys.traceS5 rfl
  have t7 : LockSys.Step LockSys.traceOp LockSys.traceS6 LockSys.traceS7 :=
    LockSys.Step.write false LockSys.traceS6 LockSys.traceS5.doc rfl
  have t8 : LockSys.Step LockSys.traceOp LockSys.traceS7 LockSys.traceS8 :=
    LockSys.Step.release false LockSys.traceS7 rfl
  have hr : LockSys.Reachable LockSys.traceOp [] LockSys.traceS8 :=
    Relation.ReflTransGen.tail (Relation.ReflTransGen.tail
      (Relation.ReflTransGen.tail (Relation.ReflTransGen.tail
      (Relation.ReflTransGen.tail (Relation.ReflTransGen.tail
      (Relation.ReflTransGen.tail (Relation.ReflTransGen.tail
      Relation.ReflTransGen.refl t1) t2) t3) t4) t5) t6) t7) t8
  exact c1_disjoint_field_updates_no_lost_update "k" "a" "b"
    (JsonValue.num 1) (JsonValue.num 2) [] LockSys.traceS8
    (by decide) hr rfl rfl
